import Mathlib

/-!
Verification of the retirement-planning backend (`api/` + `calculator/services/`).

Money and rates are modelled in `ℚ`; the engine's arithmetic (`preprocessing.py`,
`savings_needed.py`, `gap_analysis.py`, `utils.py`, `monte_carlo.py`) is a chain of
field operations, so the embedding is exact except where a claim is specifically
about IEEE-754 double rounding (the serializer's dollars-to-cents conversion),
which is modelled by an explicit binary64 rounding function.
-/

namespace RetireCalc

/-! ## Basic numeric helpers: Python rounding and truncation -/

/-- Round a rational to the nearest integer, ties to even (the rounding used both by
Python's builtin `round` and by IEEE-754 round-to-nearest-even at integer scale). -/
def rnde (q : ℚ) : ℤ :=
  if q - (⌊q⌋ : ℚ) < 1/2 then ⌊q⌋
  else if (1:ℚ)/2 < q - (⌊q⌋ : ℚ) then ⌊q⌋ + 1
  else if Even ⌊q⌋ then ⌊q⌋ else ⌊q⌋ + 1

/-- Python `int()` applied to a number: truncation toward zero. -/
def pytrunc (q : ℚ) : ℤ :=
  if q < 0 then -⌊-q⌋ else ⌊q⌋

/-- Value computed by Python's `round(x, 1)`. -/
def pyround1 (q : ℚ) : ℚ := (rnde (q * 10) : ℚ) / 10

/-- Value computed by Python's `round(x, 2)`. -/
def pyround2 (q : ℚ) : ℚ := (rnde (q * 100) : ℚ) / 100

/-- Python `str.upper()` (ASCII, which covers every label the code compares),
written over the character list so that it evaluates by reduction. -/
def strUpper (s : String) : String := String.mk (s.data.map Char.toUpper)

/-- Python `str.lower()` (ASCII, which covers every label the code compares),
written over the character list so that it evaluates by reduction. -/
def strLower (s : String) : String := String.mk (s.data.map Char.toLower)

/-! ## IEEE-754 binary64 model for the serializer's money conversion
(`api/serializers.py` create / to_representation)

The serializer computes `int(float(value) * 100)` on write and `float(cents) / 100`
on read.  CPython floats are IEEE-754 binary64 values; every step below models the
round-to-nearest-even binary64 result of the exact rational operation.  All currency
values involved lie far inside the binary64 normal range, so subnormals and overflow
do not arise and are not modelled. -/

/-- Fuel-driven floor of log base 2: `log2fuel fuel n` halves `n` until it drops
below 2, and `fuel = n` always suffices. -/
def log2fuel : ℕ → ℕ → ℕ
  | 0, _ => 0
  | fuel + 1, n => if n < 2 then 0 else log2fuel fuel (n / 2) + 1

/-- Floor of log base 2 of a positive natural number. -/
def natLog2 (n : ℕ) : ℕ := log2fuel n n

/-- Fuel-driven ceiling of log base 2 (smallest k with 2^k ≥ n). -/
def clog2fuel : ℕ → ℕ → ℕ
  | 0, _ => 0
  | fuel + 1, n => if n ≤ 1 then 0 else clog2fuel fuel ((n + 1) / 2) + 1

/-- Ceiling of log base 2 of a positive natural number. -/
def natClog2 (n : ℕ) : ℕ := clog2fuel n n

/-- Floor of log base 2 of a positive rational: for q ≥ 1 it is the floor log of
⌊q⌋; for 0 < q < 1 it is the negated ceiling log of ⌈q⁻¹⌉ (2^k ≤ q < 2^(k+1)). -/
def qlog2floor (q : ℚ) : ℤ :=
  if 1 ≤ q then (natLog2 ⌊q⌋.toNat : ℤ)
  else -(natClog2 ⌈q⁻¹⌉.toNat : ℤ)

/-- Binary64 rounding of a positive rational in the normal range: scale into
[2^52, 2^53), round the 53-bit significand to nearest with ties to even, and scale
back. -/
def roundFpos (q : ℚ) : ℚ :=
  ((rnde (q * (2:ℚ) ^ ((52:ℤ) - qlog2floor q)) : ℚ)) * (2:ℚ) ^ (qlog2floor q - 52)

/-- Binary64 round-to-nearest-even of a rational value (normal range): the value a
CPython `float` holds after converting the exact value `q`. Rounding is symmetric
around zero. -/
def roundF (q : ℚ) : ℚ :=
  if q = 0 then 0
  else if q < 0 then -roundFpos (-q)
  else roundFpos q

/-- Embeds `InvestmentAccountSerializer.validate_balance` (serializers.py lines
107-112): a present balance is accepted exactly when it is not negative. -/
def validate_balance_accepts (balance : ℚ) : Bool :=
  if balance < 0 then false else true

/-- Embeds the serializer's write conversion `int(float(value) * 100)`
(serializers.py lines 348-394): the accepted 2-decimal dollar amount is converted to
a binary64 float, multiplied by 100 in binary64, and truncated toward zero to the
stored integer cents. -/
def dollars_to_cents_stored (d : ℚ) : ℤ := pytrunc (roundF (roundF d * 100))

/-- Embeds the serializer's read conversion `float(cents) / 100` (serializers.py
lines 396-445): the stored integer cents are converted to binary64 and divided by
100 in binary64. -/
def cents_to_dollars_read (c : ℤ) : ℚ := roundF (roundF (c : ℚ) / 100)

/-! ## Gap analysis (`calculator/services/gap_analysis.py`) -/

/-- Embeds `determine_on_track_status` (gap_analysis.py lines 44-73): not on track if
`extra_savings < 0`; not on track if a run-out age exists and is strictly below the
life expectancy; on track otherwise. -/
def determine_on_track_status (extra_savings : ℚ) (run_out_age : Option ℤ)
    (life_expectancy : ℤ) : Bool :=
  if extra_savings < 0 then false
  else
    match run_out_age with
    | some r => if r < life_expectancy then false else true
    | none => true

/-! ## CPP adjustment (`calculator/services/preprocessing.py` lines 61-190) -/

/-- Result record of `calculate_cpp_adjustment` (the timing fields, which depend on the
wall clock, are not part of any claim and are omitted). -/
structure CppAdjustment where
  base_amount : ℚ
  base_monthly : ℚ
  final_monthly : ℚ
  start_age : ℤ
  adjusted_amount : ℚ
  adjustment_factor : ℚ
  adjustment_type : String

/-- Embeds `calculate_cpp_adjustment` (preprocessing.py lines 61-190).
`cpp_amount_at_age` is the stored monthly amount in cents (`None` and `0` are both
falsy in Python, yielding `0.0`); `cpp_start_age` falls back to 65 when falsy.
In every branch `cpp_final_monthly` is the user-supplied monthly amount and the
back-solved age-65 figure is stored for reference only. -/
def calculate_cpp_adjustment (cpp_amount_at_age : Option ℤ) (cpp_start_age : Option ℤ) :
    CppAdjustment :=
  let cpp_at_start_age_monthly_cents : ℚ :=
    match cpp_amount_at_age with
    | none => 0
    | some v => (v : ℚ)
  let cpp_at_start_age_monthly : ℚ := cpp_at_start_age_monthly_cents / 100
  let start_age : ℤ :=
    match cpp_start_age with
    | none => 65
    | some a => if a = 0 then 65 else a
  if start_age < 65 then
    let months_early : ℤ := (65 - start_age) * 12
    let cpp_at_65_monthly := cpp_at_start_age_monthly / (1 - (6/1000) * (months_early : ℚ))
    let cpp_final_monthly := cpp_at_start_age_monthly
    { base_amount := cpp_final_monthly * 12
      base_monthly := cpp_at_65_monthly
      final_monthly := cpp_final_monthly
      start_age := start_age
      adjusted_amount := cpp_final_monthly * 12
      adjustment_factor := 1 - (6/1000) * (months_early : ℚ)
      adjustment_type := "early" }
  else if 65 < start_age then
    let months_late : ℤ := (start_age - 65) * 12
    let cpp_at_65_monthly := cpp_at_start_age_monthly / (1 + (7/1000) * (months_late : ℚ))
    let cpp_final_monthly := cpp_at_start_age_monthly
    { base_amount := cpp_final_monthly * 12
      base_monthly := cpp_at_65_monthly
      final_monthly := cpp_final_monthly
      start_age := start_age
      adjusted_amount := cpp_final_monthly * 12
      adjustment_factor := 1 + (7/1000) * (months_late : ℚ)
      adjustment_type := "late" }
  else
    { base_amount := cpp_at_start_age_monthly * 12
      base_monthly := cpp_at_start_age_monthly
      final_monthly := cpp_at_start_age_monthly
      start_age := start_age
      adjusted_amount := cpp_at_start_age_monthly * 12
      adjustment_factor := 1
      adjustment_type := "standard" }

/-- The `cpp_adjusted` figure placed into the preprocessed bundle by
`preprocess_retirement_plan` (preprocessing.py line 1304): exactly
`calculate_cpp_adjustment(...)['adjusted_amount']`.  This is the annual CPP figure
consumed by the withdrawal simulation and `calculate_annual_shortfall`. -/
def preprocessed_cpp_adjusted (cpp_amount_at_age : Option ℤ) (cpp_start_age : Option ℤ) : ℚ :=
  (calculate_cpp_adjustment cpp_amount_at_age cpp_start_age).adjusted_amount

/-! ## Life-event impact (`calculator/services/utils.py` lines 5-46) -/

/-- The three account buckets tracked by the simulation engines. -/
inductive Bucket where
  | TFSA
  | RRSP
  | NON_REG
deriving DecidableEq, Repr

/-- A stored life event, with the fields read by `calculate_life_event_impact`
(`amount` is integer cents; a missing `account` is modelled as the empty string,
both being falsy in Python). -/
structure LifeEvent where
  event_type : String
  frequency : String
  amount : ℤ
  start_age : ℤ
  end_age : ℤ
  account : String

/-- The bucket targeted by an event in `calculate_life_event_impact` (utils.py lines
42-44): a falsy label becomes `NON_REG`; otherwise the upper-cased label must be
exactly `TFSA`, `RRSP` or `NON_REG`, and any other label is skipped (`none`). -/
def eventBucket (account : String) : Option Bucket :=
  let account_type := if account = "" then "NON_REG" else strUpper account
  if account_type = "TFSA" then some .TFSA
  else if account_type = "RRSP" then some .RRSP
  else if account_type = "NON_REG" then some .NON_REG
  else none

/-- The signed dollar impact of one event at a given age, given that the age is inside
the event's window (utils.py lines 28-40): one_time pays only at `start_age`, monthly
pays 12x, annually pays 1x, any other frequency pays 0; expenses are negated. -/
def eventSignedImpact (e : LifeEvent) (age : ℤ) : ℚ :=
  let amount : ℚ := (e.amount : ℚ) / 100
  let impact : ℚ :=
    if e.frequency = "one_time" ∧ age = e.start_age then amount
    else if e.frequency = "monthly" then amount * 12
    else if e.frequency = "annually" then amount
    else 0
  if e.event_type = "expenses" then -impact else impact

/-- One iteration of the `for event in life_events` loop of
`calculate_life_event_impact`. -/
def lifeEventStep (age : ℤ) (impacts : Bucket → ℚ) (e : LifeEvent) : Bucket → ℚ :=
  if e.start_age ≤ age ∧ age ≤ e.end_age then
    match eventBucket e.account with
    | some b => fun b2 => if b2 = b then impacts b2 + eventSignedImpact e age else impacts b2
    | none => impacts
  else impacts

/-- Embeds `calculate_life_event_impact` (utils.py lines 5-46) as the per-bucket net
impact map.  The `inflation_rate` and `years_since_retirement` parameters of the
Python function are unused by its body and omitted here. -/
def calculate_life_event_impact (life_events : List LifeEvent) (age : ℤ) : Bucket → ℚ :=
  life_events.foldl (lifeEventStep age) (fun _ => 0)

/-- Bucket assignment as the claim states it (spec section 4.9): unrecognized or blank
target-account labels fold into `NON_REG`. -/
def claimBucket (account : String) : Bucket :=
  let account_type := if account = "" then "NON_REG" else strUpper account
  if account_type = "TFSA" then .TFSA
  else if account_type = "RRSP" then .RRSP
  else .NON_REG

/-- Per-age life-event impact as the claim states it: every event whose inclusive
window contains the age contributes its signed impact to `claimBucket` of its label. -/
def claim_life_event_impact (life_events : List LifeEvent) (age : ℤ) (b : Bucket) : ℚ :=
  (life_events.map (fun e =>
    if (e.start_age ≤ age ∧ age ≤ e.end_age) ∧ claimBucket e.account = b then
      eventSignedImpact e age
    else 0)).sum

/-- Per-age life-event impact with the bucket rule the code actually implements:
events whose non-blank label does not normalize to a tracked bucket are dropped. -/
def amended_life_event_impact (life_events : List LifeEvent) (age : ℤ) (b : Bucket) : ℚ :=
  (life_events.map (fun e =>
    if (e.start_age ≤ age ∧ age ≤ e.end_age) ∧ eventBucket e.account = some b then
      eventSignedImpact e age
    else 0)).sum

/-- Concrete event with an unrecognized target-account label, used to separate the
claimed folding rule from the implemented dropping rule. -/
def fooEvent : LifeEvent :=
  { event_type := "contribution", frequency := "annually", amount := 1000
    start_age := 30, end_age := 40, account := "FOO" }

/-! ## Savings needed (`calculator/services/savings_needed.py`) -/

/-- Embeds `apply_inflation_to_amount` (preprocessing.py lines 515-537) on its
`monthly=False` path, the only path reached from the savings-needed calculation:
base times (1 + rate)^years. -/
def apply_inflation_to_amount (base_amount : ℚ) (inflation_rate : ℚ) (years : ℕ) : ℚ :=
  base_amount * (1 + inflation_rate) ^ years

/-- The three guaranteed-income figures read out of the preprocessed bundle by
`calculate_annual_shortfall` (savings_needed.py lines 65-67). -/
structure GuaranteedIncome where
  cpp_adjusted : ℚ
  oas_adjusted : ℚ
  pension_amount : ℚ

/-- Embeds `calculate_annual_shortfall` (savings_needed.py lines 20-82): inflate the
income goal to retirement, subtract CPP + OAS + pension, floor at 0. -/
def calculate_annual_shortfall (yearly_income_goal : ℚ) (inflation_rate : ℚ)
    (years_to_retirement : ℕ) (gov : GuaranteedIncome) : ℚ :=
  let inflated_income_need :=
    apply_inflation_to_amount yearly_income_goal inflation_rate years_to_retirement
  let total_guaranteed_income := gov.cpp_adjusted + gov.oas_adjusted + gov.pension_amount
  max 0 (inflated_income_need - total_guaranteed_income)

/-- Embeds `calculate_savings_needed_pv` (savings_needed.py lines 85-197): zero when
the annual shortfall is not positive, otherwise the simple product when the real
return is within 0.0001 of zero, otherwise the present-value-of-annuity formula. -/
def calculate_savings_needed_pv (annual_income_need : ℚ) (inflation_rate : ℚ)
    (return_rate : ℚ) (years_in_retirement : ℕ) (years_to_retirement : ℕ)
    (gov : GuaranteedIncome) : ℚ :=
  let annual_shortfall :=
    calculate_annual_shortfall annual_income_need inflation_rate years_to_retirement gov
  if annual_shortfall ≤ 0 then 0
  else
    let real_return := (1 + return_rate) / (1 + inflation_rate) - 1
    if |real_return| < 1/10000 then
      annual_shortfall * (years_in_retirement : ℚ)
    else
      let discount_factor := (1 + real_return) ^ years_in_retirement
      annual_shortfall * (1 - 1 / discount_factor) / real_return

/-- Savings-needed target exactly as the claim words it: 0 when the inflated income
goal minus the guaranteed annual income is not positive; otherwise the shortfall times
years-in-retirement when the real return is within 0.0001 of zero; otherwise the
present value shortfall times (1 - (1+r)^(-n)) / r. -/
def claim_savings_needed (annual_income_need : ℚ) (inflation_rate : ℚ)
    (return_rate : ℚ) (years_in_retirement : ℕ) (years_to_retirement : ℕ)
    (gov : GuaranteedIncome) : ℚ :=
  let shortfall := annual_income_need * (1 + inflation_rate) ^ years_to_retirement -
    (gov.cpp_adjusted + gov.oas_adjusted + gov.pension_amount)
  if shortfall ≤ 0 then 0
  else
    let r := (1 + return_rate) / (1 + inflation_rate) - 1
    if |r| < 1/10000 then shortfall * (years_in_retirement : ℚ)
    else shortfall * (1 - (1 + r) ^ (-(years_in_retirement : ℤ))) / r

/-! ## Forecast classification (`api/views.py` get_projection lines 257-281) -/

/-- Embeds the forecast-status computation of `get_projection` (views.py lines
257-281).  `shortfall` is the absolute value of a negative extra-savings figure, else
0 (lines 258-259); the status is then: "on_track" when the projection's on-track flag
is set; else, when the shortfall is positive, "almost_there" if it is under one tenth
of savings needed and "off_track" otherwise; else "on_track" again.  The float
literal `0.1` is modelled as the exact rational 1/10. -/
def forecast_status (is_on_track : Bool) (extra_savings : ℚ) (savings_needed : ℚ) :
    String :=
  let shortfall := if extra_savings < 0 then |extra_savings| else 0
  if is_on_track then "on_track"
  else if 0 < shortfall then
    if shortfall < savings_needed * (1/10) then "almost_there" else "off_track"
  else "on_track"

/-- Forecast classification as amended: "on_track" also covers every not-on-track
projection whose shortfall is zero (projected at least needed), instead of the
claimed "off_track". -/
def amended_forecast_status (is_on_track : Bool) (extra_savings : ℚ)
    (savings_needed : ℚ) : String :=
  if is_on_track then "on_track"
  else if extra_savings < 0 then
    if -extra_savings < savings_needed / 10 then "almost_there" else "off_track"
  else "on_track"

/-! ## Withdrawal strategy (`calculator/services/utils.py` lines 49-89) -/

/-- Resolution of the strategy selector to a draw order (utils.py lines 71-78): the
lower-cased name is looked up in the strategy table, defaulting to the optimized
order. -/
def resolveWithdrawalOrder (strategy : String) : List Bucket :=
  let s := strLower strategy
  if s = "optimized" then [.NON_REG, .RRSP, .TFSA]
  else if s = "rrsp" then [.RRSP, .NON_REG, .TFSA]
  else if s = "non_registered" then [.NON_REG, .TFSA, .RRSP]
  else if s = "tfsa" then [.TFSA, .NON_REG, .RRSP]
  else [.NON_REG, .RRSP, .TFSA]

/-- Pointwise update of a bucket-balance map, modelling the dict assignment
`account_balances[account_type] = ...`. -/
def updateBal (bal : Bucket → ℚ) (b : Bucket) (v : ℚ) : Bucket → ℚ :=
  fun b2 => if b2 = b then v else bal b2

/-- The `for account_type in withdrawal_order` loop of `apply_withdrawal_strategy`
(utils.py lines 81-89), returning the final balances and the remaining withdrawal:
stop when nothing remains; draw `min balance remaining` from each positive bucket in
order. -/
def drainLoop : List Bucket → ℚ → (Bucket → ℚ) → ((Bucket → ℚ) × ℚ)
  | [], remaining, bal => (bal, remaining)
  | b :: rest, remaining, bal =>
    if remaining ≤ 0 then (bal, remaining)
    else
      let balance := bal b
      if 0 < balance then
        let amt := min balance remaining
        drainLoop rest (remaining - amt) (updateBal bal b (balance - amt))
      else drainLoop rest remaining bal

/-- Embeds `apply_withdrawal_strategy` (utils.py lines 49-89): no effect when the
needed amount is not positive, otherwise the drain loop over the resolved order
(the Python function mutates `account_balances` in place; the embedding returns the
final map). -/
def apply_withdrawal_strategy (strategy : String) (withdrawal_needed : ℚ)
    (account_balances : Bucket → ℚ) : Bucket → ℚ :=
  if withdrawal_needed ≤ 0 then account_balances
  else (drainLoop (resolveWithdrawalOrder strategy) withdrawal_needed account_balances).1

/-- Sum of the three bucket balances. -/
def bucketTotal (bal : Bucket → ℚ) : ℚ := bal .TFSA + bal .RRSP + bal .NON_REG

/-- Sum of the positive parts of the three bucket balances: the total amount the
drain loop can possibly withdraw. -/
def positiveTotal (bal : Bucket → ℚ) : ℚ :=
  max 0 (bal .TFSA) + max 0 (bal .RRSP) + max 0 (bal .NON_REG)

/-- The worked example of the claim: NON_REG $1,000, RRSP $2,000, TFSA $5,000. -/
def exampleBalances : Bucket → ℚ
  | .TFSA => 5000
  | .RRSP => 2000
  | .NON_REG => 1000

/-! ## Monte Carlo percentiles (`calculator/services/monte_carlo.py` lines 248-285) -/

/-- Embeds the inner `percentile` helper of `run_monte_carlo_simulation`
(monte_carlo.py lines 250-260): 0 on empty data; otherwise linear interpolation at
index k = (n-1)p, with `f = int(k)` (truncation) and blend factor `c = k - f`. -/
def percentile (data : List ℚ) (p : ℚ) : ℚ :=
  if data = [] then 0
  else
    let n := data.length
    let k : ℚ := ((n : ℚ) - 1) * p
    let f : ℤ := pytrunc k
    let c : ℚ := k - (f : ℚ)
    if f + 1 < (n : ℤ) then
      data.getD f.toNat 0 + c * (data.getD (f.toNat + 1) 0 - data.getD f.toNat 0)
    else data.getD f.toNat 0

/-- The five percentile figures placed into the Monte Carlo result dictionary
(monte_carlo.py lines 248 and 264-284): the ending balances are sorted ascending and
each percentile is rounded to 2 decimals on report. -/
def reported_percentile (ending_balances : List ℚ) (p : ℚ) : ℚ :=
  pyround2 (percentile (ending_balances.mergeSort) p)

/-! ## Account data preparation (`calculator/services/preprocessing.py` lines 1020-1131) -/

/-- A stored investment account, with the fields read by `prepare_account_data`
(balance and contribution are integer cents; a missing contribution or blank type is
modelled by `none` / the empty string, both falsy in Python). -/
structure InvestmentAccount where
  account_type : String
  balance : ℤ
  monthly_contribution : Option ℤ
  investment_profile : String

/-- Account-type normalization of `prepare_account_data` (preprocessing.py lines
1055-1058): falsy types default to NON_REG, the upper-cased label must be one of
TFSA / RRSP / NON_REG / NON_REGISTERED (the last mapping to NON_REG), and any other
label is skipped. -/
def accountBucket (account_type : String) : Option Bucket :=
  let t := if account_type = "" then "NON_REG" else strUpper account_type
  if t = "TFSA" then some .TFSA
  else if t = "RRSP" then some .RRSP
  else if t = "NON_REG" then some .NON_REG
  else if t = "NON_REGISTERED" then some .NON_REG
  else none

/-- Embeds `get_account_return_profile` (preprocessing.py lines 564-578) restricted to
its `expected_return` output: the lower-cased profile (blank defaulting to balanced)
looked up in `PROFILE_RETURNS` (conservative 2%, balanced 5%, growth 10%) with
default 5%. -/
def get_account_return_profile (investment_profile : String) : ℚ :=
  let profile := if investment_profile = "" then "balanced" else strLower investment_profile
  if profile = "conservative" then 2/100
  else if profile = "balanced" then 5/100
  else if profile = "growth" then 10/100
  else 5/100

/-- The three per-bucket maps built by `prepare_account_data` that feed the
simulation: balances and annualized contributions in dollars, and expected returns.
(The function also derives profile labels, an individual-account list, totals and
allocation percentages from the same data; the claim concerns these three maps.) -/
structure AccountData where
  account_balances : Bucket → ℚ
  account_contributions : Bucket → ℚ
  account_returns : Bucket → ℚ

/-- One iteration of the `for acc in accounts` loop of `prepare_account_data`
(preprocessing.py lines 1054-1092): a recognized account assigns (not adds) its
balance, annualized contribution and expected return to its bucket's slot. -/
def prepareAccountStep (s : AccountData) (acc : InvestmentAccount) : AccountData :=
  match accountBucket acc.account_type with
  | none => s
  | some t =>
    let balance_dollars : ℚ := (acc.balance : ℚ) / 100
    let monthly_contrib_dollars : ℚ :=
      (match acc.monthly_contribution with
        | none => 0
        | some c => (c : ℚ)) / 100
    { account_balances := updateBal s.account_balances t balance_dollars
      account_contributions := updateBal s.account_contributions t
        (monthly_contrib_dollars * 12)
      account_returns := updateBal s.account_returns t
        (get_account_return_profile acc.investment_profile) }

/-- Embeds `prepare_account_data` (preprocessing.py lines 1020-1131): fold the
account list over initial maps of zero balances, zero contributions and 5% returns. -/
def prepare_account_data (accounts : List InvestmentAccount) : AccountData :=
  accounts.foldl prepareAccountStep
    { account_balances := fun _ => 0
      account_contributions := fun _ => 0
      account_returns := fun _ => 5/100 }

/-- The annualized dollar contribution `prepare_account_data` derives from one
account's stored monthly cents (preprocessing.py lines 1065-1068). -/
def annualContribution (acc : InvestmentAccount) : ℚ :=
  (match acc.monthly_contribution with
    | none => 0
    | some c => (c : ℚ)) / 100 * 12

/-- First witness account for the duplicate-bucket behavior: a TFSA account holding
$1,000.00 with a $100.00/month contribution, balanced profile. -/
def tfsaAccountA : InvestmentAccount :=
  { account_type := "TFSA", balance := 100000, monthly_contribution := some 10000
    investment_profile := "balanced" }

/-- Second witness account of the same bucket: a TFSA account holding $50.00 with no
contribution, growth profile. -/
def tfsaAccountB : InvestmentAccount :=
  { account_type := "TFSA", balance := 5000, monthly_contribution := none
    investment_profile := "growth" }

/-! ## Projection persistence (`calculator/services/projection_creation.py`) -/

/-- Embeds the `success_probability` field written by `create_projection`
(projection_creation.py line 64): the Monte Carlo value is stored only when truthy
(present and nonzero), rounded to 1 decimal; otherwise the column is left null. -/
def create_success_probability_field (success_probability : Option ℚ) : Option ℚ :=
  match success_probability with
  | none => none
  | some v => if v = 0 then none else some (pyround1 v)

/-- Embeds the `success_probability` field written by `update_projection`
(projection_creation.py line 112), which repeats the create-path expression. -/
def update_success_probability_field (success_probability : Option ℚ) : Option ℚ :=
  match success_probability with
  | none => none
  | some v => if v = 0 then none else some (pyround1 v)

end RetireCalc

namespace RetireCalc

/-! ## Theorems -/

/-- C5: `determine_on_track_status` returns false iff extra savings is negative or a
run-out age exists strictly below life expectancy; in particular extra savings 0 with
no run-out gives true, and extra savings -1 gives false for every run-out value. -/
theorem C5_on_track_characterization :
    ∀ (e : ℚ) (ro : Option ℤ) (L : ℤ),
      (determine_on_track_status e ro L = true ↔
        (0 ≤ e ∧ ∀ r : ℤ, ro = some r → L ≤ r)) ∧
      determine_on_track_status 0 none L = true ∧
      determine_on_track_status (-1) ro L = false := by
  intro e ro L
  refine ⟨?_, ?_, ?_⟩
  · rcases ro with _ | r
    · constructor
      · intro _
        by_cases he : e < 0
        · simp [determine_on_track_status, he] at *
        · exact ⟨not_lt.mp he, by simp⟩
      · rintro ⟨he, _⟩
        simp [determine_on_track_status, not_lt.mpr he]
    · constructor
      · intro h
        by_cases he : e < 0
        · simp [determine_on_track_status, he] at h
        · by_cases hr : r < L
          · simp [determine_on_track_status, he, hr] at h
          · exact ⟨not_lt.mp he, fun s hs => by cases hs; exact not_lt.mp hr⟩
      · rintro ⟨he, hall⟩
        have hL := hall r rfl
        simp [determine_on_track_status, not_lt.mpr he, not_lt.mpr hL]
  · simp [determine_on_track_status]
  · simp [determine_on_track_status, show ((-1 : ℚ) < 0) by norm_num]

/-- C3: the annual CPP figure carried into the simulation (`cpp_adjusted`) is the
supplied monthly amount times 12 for every start age, unmodified by the early/late
adjustment factor; in particular $1,000/month (100000 cents) gives exactly
$12,000/year at start age 65 and at start age 60, even though at 60 the computed
adjustment factor is 0.64. -/
theorem C3_cpp_pass_through :
    (∀ (cents : ℤ) (sa : Option ℤ),
      preprocessed_cpp_adjusted (some cents) sa = (cents : ℚ) / 100 * 12) ∧
    preprocessed_cpp_adjusted (some 100000) (some 65) = 12000 ∧
    preprocessed_cpp_adjusted (some 100000) (some 60) = 12000 ∧
    (calculate_cpp_adjustment (some 100000) (some 60)).adjustment_factor = 16/25 := by
  have hgen : ∀ (cents : ℤ) (sa : Option ℤ),
      preprocessed_cpp_adjusted (some cents) sa = (cents : ℚ) / 100 * 12 := by
    intro cents sa
    unfold preprocessed_cpp_adjusted calculate_cpp_adjustment
    rcases sa with _ | a
    · norm_num
    · by_cases h0 : a = 0
      · simp [h0]
      · simp only [h0, if_false]
        by_cases h1 : a < 65
        · simp [h1]
        · by_cases h2 : 65 < a <;> simp [h1, h2]
  refine ⟨hgen, ?_, ?_, ?_⟩
  · rw [hgen]; norm_num
  · rw [hgen]; norm_num
  · norm_num [calculate_cpp_adjustment]

/-- Pointwise effect of one loop iteration of `calculate_life_event_impact`: the
accumulator grows by the event's signed impact exactly on the bucket the code assigns
it to, and events outside the window or with an untracked label change nothing. -/
theorem lifeEventStep_apply (age : ℤ) (acc : Bucket → ℚ) (e : LifeEvent) (b : Bucket) :
    lifeEventStep age acc e b = acc b +
      (if (e.start_age ≤ age ∧ age ≤ e.end_age) ∧ eventBucket e.account = some b then
        eventSignedImpact e age else 0) := by
  unfold lifeEventStep
  by_cases hw : e.start_age ≤ age ∧ age ≤ e.end_age
  · simp only [if_pos hw]
    cases hb : eventBucket e.account with
    | none => simp [hb]
    | some b0 =>
      by_cases hbb : b = b0
      · subst hbb; simp [hw, hb]
      · simp [hw, hb, hbb, Ne.symm hbb]
  · simp [hw]

/-- Folding the loop of `calculate_life_event_impact` from any accumulator adds the
per-event sum with the code's bucket-assignment rule. -/
theorem lifeEvent_foldl_eq (events : List LifeEvent) (age : ℤ) (acc : Bucket → ℚ)
    (b : Bucket) :
    events.foldl (lifeEventStep age) acc b = acc b + amended_life_event_impact events age b := by
  induction events generalizing acc with
  | nil => simp [amended_life_event_impact]
  | cons e t ih =>
    simp only [List.foldl_cons, amended_life_event_impact, List.map_cons, List.sum_cons]
    rw [ih, lifeEventStep_apply]
    simp only [amended_life_event_impact]
    ring

/-- C2 counterexample: an in-window annually contribution of $10.00 labelled with the
unrecognized account "FOO" is silently dropped by `calculate_life_event_impact`
(NON_REG impact 0), while the claim's rule of folding unrecognized labels into
NON_REG would yield 10. -/
theorem C2_counterexample :
    calculate_life_event_impact [fooEvent] 30 Bucket.NON_REG ≠
      claim_life_event_impact [fooEvent] 30 Bucket.NON_REG ∧
    calculate_life_event_impact [fooEvent] 30 Bucket.NON_REG = 0 ∧
    claim_life_event_impact [fooEvent] 30 Bucket.NON_REG = 10 := by
  have hbucket : eventBucket "FOO" = none := by rfl
  have hcode : calculate_life_event_impact [fooEvent] 30 Bucket.NON_REG = 0 := by
    simp [calculate_life_event_impact, lifeEventStep, fooEvent, hbucket]
  have hclaim : claim_life_event_impact [fooEvent] 30 Bucket.NON_REG = 10 := by
    have hcb : claimBucket "FOO" = Bucket.NON_REG := by rfl
    simp [claim_life_event_impact, fooEvent, hcb, eventSignedImpact]
    norm_num
  exact ⟨by rw [hcode, hclaim]; norm_num, hcode, hclaim⟩

/-- C2 amended: the per-age life-event impact assigns each in-window event to the
bucket named by its upper-cased target account, with a blank label folding into
NON_REG but any unrecognized non-blank label silently dropped; one_time contributes
its amount only when age equals start_age, monthly contributes amount times 12,
annually contributes its amount once, and expenses are negated. -/
theorem C2_life_event_impact_amended :
    ∀ (events : List LifeEvent) (age : ℤ) (b : Bucket),
      calculate_life_event_impact events age b = amended_life_event_impact events age b := by
  intro events age b
  have h := lifeEvent_foldl_eq events age (fun _ => 0) b
  simpa [calculate_life_event_impact] using h

/-- C6: the savings-needed present value computed by `calculate_savings_needed_pv`
agrees with the claim's formula on every input: 0 when the inflated income goal does
not exceed the guaranteed income, the simple product when the real return is within
0.0001 of zero, and the present-value-of-annuity amount otherwise. -/
theorem C6_savings_needed_formula :
    ∀ (goal infl ret : ℚ) (nret nr : ℕ) (gov : GuaranteedIncome),
      calculate_savings_needed_pv goal infl ret nret nr gov =
        claim_savings_needed goal infl ret nret nr gov := by
  intro goal infl ret nret nr gov
  simp only [calculate_savings_needed_pv, claim_savings_needed, calculate_annual_shortfall,
    apply_inflation_to_amount]
  rcases le_or_lt (goal * (1 + infl) ^ nr -
      (gov.cpp_adjusted + gov.oas_adjusted + gov.pension_amount)) 0 with hd | hd
  · rw [max_eq_left hd, if_pos le_rfl, if_pos hd]
  · rw [max_eq_right hd.le, if_neg (not_le.mpr hd), if_neg (not_le.mpr hd)]
    split_ifs with h
    · rfl
    · rw [zpow_neg, zpow_natCast, one_div]

/-- C4 counterexample: a stored projection that is not on track but has zero
shortfall (extra savings 0, savings needed $100) is classified "on_track" by
`get_projection`, not "off_track" as the claim requires. -/
theorem C4_counterexample :
    forecast_status false 0 100 ≠ "off_track" ∧
    forecast_status false 0 100 = "on_track" := by
  have h : forecast_status false 0 100 = "on_track" := by
    simp [forecast_status]
  exact ⟨by rw [h]; decide, h⟩

/-- C4 amended: the forecast classification is "on_track" when the projection's
on-track flag is set, "almost_there" when the flag is clear and the (positive)
shortfall is under 10% of savings needed, "off_track" when the flag is clear and the
shortfall is positive and at least 10% of savings needed, and falls back to
"on_track" (not "off_track") when the flag is clear but the shortfall is zero. -/
theorem C4_forecast_status_amended :
    ∀ (t : Bool) (extra needed : ℚ),
      forecast_status t extra needed = amended_forecast_status t extra needed ∧
      (0 ≤ extra → forecast_status false extra needed = "on_track") := by
  intro t extra needed
  constructor
  · simp only [forecast_status, amended_forecast_status]
    cases t
    · simp only [Bool.false_eq_true, if_false]
      by_cases he : extra < 0
      · rw [if_pos he, if_pos he, abs_of_neg he, if_pos (neg_pos.mpr he)]
        have : needed * (1/10) = needed / 10 := by ring
        rw [this]
      · rw [if_neg he, if_neg he, if_neg (lt_irrefl 0)]
    · simp
  · intro he
    simp [forecast_status, not_lt.mpr he]

/-- C4 witness: instantiating the amended forecast characterization at a concrete
not-on-track projection with zero shortfall (extra savings 5, needed 100). -/
theorem C4_forecast_status_amended_witness :
    (0:ℚ) ≤ 5 ∧ forecast_status false 5 100 = "on_track" := by
  exact ⟨by norm_num, (C4_forecast_status_amended false 5 100).2 (by norm_num)⟩

/-- Each loop iteration of `apply_withdrawal_strategy` leaves every bucket either
untouched or drained to a value between zero and its starting balance. -/
theorem drainLoop_bucket_bounds (l : List Bucket) :
    ∀ (remaining : ℚ) (bal : Bucket → ℚ) (b : Bucket),
      (drainLoop l remaining bal).1 b = bal b ∨
        (0 ≤ (drainLoop l remaining bal).1 b ∧ (drainLoop l remaining bal).1 b ≤ bal b) := by
  induction l with
  | nil => intro remaining bal b; left; rfl
  | cons hd rest ih =>
    intro remaining bal b
    rw [drainLoop]
    by_cases hrem : remaining ≤ 0
    · rw [if_pos hrem]; left; rfl
    · rw [if_neg hrem]
      simp only
      by_cases hbal : 0 < bal hd
      · rw [if_pos hbal]
        have hmin : 0 ≤ min (bal hd) remaining :=
          le_min hbal.le (not_le.mp hrem).le
        rcases ih (remaining - min (bal hd) remaining)
            (updateBal bal hd (bal hd - min (bal hd) remaining)) b with h | ⟨h0, h1⟩
        · rw [h]
          unfold updateBal
          by_cases hb : b = hd
          · subst hb
            rw [if_pos rfl]
            right
            constructor
            · simp [sub_nonneg, min_le_left]
            · linarith
          · rw [if_neg hb]; left; rfl
        · have hub : updateBal bal hd (bal hd - min (bal hd) remaining) b ≤ bal b := by
            unfold updateBal
            by_cases hb : b = hd
            · subst hb; rw [if_pos rfl]; linarith
            · rw [if_neg hb]
          right
          exact ⟨h0, le_trans h1 hub⟩
      · rw [if_neg hbal]
        exact ih remaining bal b

/-- Total balance minus remaining withdrawal is invariant across the drain loop:
every dollar leaving the remaining target leaves some bucket. -/
theorem drainLoop_total (l : List Bucket) :
    ∀ (remaining : ℚ) (bal : Bucket → ℚ),
      bucketTotal (drainLoop l remaining bal).1 - (drainLoop l remaining bal).2 =
        bucketTotal bal - remaining := by
  induction l with
  | nil => intro remaining bal; rfl
  | cons hd rest ih =>
    intro remaining bal
    rw [drainLoop]
    by_cases hrem : remaining ≤ 0
    · rw [if_pos hrem]
    · rw [if_neg hrem]
      simp only
      by_cases hbal : 0 < bal hd
      · rw [if_pos hbal, ih]
        have hup : bucketTotal (updateBal bal hd (bal hd - min (bal hd) remaining)) =
            bucketTotal bal - min (bal hd) remaining := by
          cases hd <;> simp [bucketTotal, updateBal] <;> ring
        rw [hup]; ring
      · rw [if_neg hbal, ih]

/-- The remaining withdrawal after the drain loop over distinct buckets equals the
needed amount minus everything that could be drawn, floored at zero. -/
theorem drainLoop_remaining (l : List Bucket) :
    ∀ (remaining : ℚ) (bal : Bucket → ℚ), l.Nodup → 0 ≤ remaining →
      (drainLoop l remaining bal).2 =
        max 0 (remaining - (l.map (fun b => max 0 (bal b))).sum) := by
  induction l with
  | nil =>
    intro remaining bal _ h0
    simp [drainLoop, max_eq_right h0]
  | cons hd rest ih =>
    intro remaining bal hnd h0
    have hnd2 := List.nodup_cons.mp hnd
    have hsum : 0 ≤ (rest.map (fun b => max 0 (bal b))).sum :=
      List.sum_nonneg (by
        intro x hx
        rcases List.mem_map.mp hx with ⟨c, _, hc⟩
        rw [← hc]; exact le_max_left _ _)
    rw [drainLoop]
    by_cases hrem : remaining ≤ 0
    · rw [if_pos hrem]
      have h00 : remaining = 0 := le_antisymm hrem h0
      subst h00
      simp only [List.map_cons, List.sum_cons]
      have harg : (0:ℚ) - (max 0 (bal hd) + (rest.map (fun b => max 0 (bal b))).sum) ≤ 0 := by
        have := le_max_left 0 (bal hd)
        linarith
      rw [max_eq_left harg]
    · rw [if_neg hrem]
      simp only
      by_cases hbal : 0 < bal hd
      · rw [if_pos hbal]
        have h0' : 0 ≤ remaining - min (bal hd) remaining :=
          sub_nonneg.mpr (min_le_right _ _)
        rw [ih _ _ hnd2.2 h0']
        have hmape : rest.map
              (fun b => max 0 (updateBal bal hd (bal hd - min (bal hd) remaining) b)) =
            rest.map (fun b => max 0 (bal b)) := by
          apply List.map_congr_left
          intro c hc
          have hchd : ¬(c = hd) := fun h => hnd2.1 (h ▸ hc)
          simp [updateBal, hchd]
        rw [hmape]
        simp only [List.map_cons, List.sum_cons]
        rw [max_eq_right hbal.le]
        rcases le_total (bal hd) remaining with hle | hle
        · rw [min_eq_left hle]
          congr 1
          ring
        · rw [min_eq_right hle]
          have hl : remaining - remaining - (rest.map (fun b => max 0 (bal b))).sum ≤ 0 := by
            linarith
          have hr : remaining - (bal hd + (rest.map (fun b => max 0 (bal b))).sum) ≤ 0 := by
            linarith
          rw [max_eq_left hl, max_eq_left hr]
      · rw [if_neg hbal]
        rw [ih _ _ hnd2.2 h0]
        simp only [List.map_cons, List.sum_cons]
        rw [max_eq_left (not_lt.mp hbal)]
        congr 1
        ring

/-- Every possible resolved draw order is one of the four fixed three-bucket lists. -/
theorem resolveWithdrawalOrder_cases (strategy : String) :
    resolveWithdrawalOrder strategy = [.NON_REG, .RRSP, .TFSA] ∨
    resolveWithdrawalOrder strategy = [.RRSP, .NON_REG, .TFSA] ∨
    resolveWithdrawalOrder strategy = [.NON_REG, .TFSA, .RRSP] ∨
    resolveWithdrawalOrder strategy = [.TFSA, .NON_REG, .RRSP] := by
  simp only [resolveWithdrawalOrder]
  split_ifs <;> simp

/-- C7: the withdrawal strategy resolves the four selector names to their documented
draw orders; applying it never drives a bucket below zero (each bucket ends either
untouched or between 0 and its start); the total drawn is exactly the needed amount
capped by the total positive balance (so it stops once fully drawn or exhausted);
and the worked example drains NON_REG then RRSP, leaving TFSA intact. -/
theorem C7_withdrawal_strategy :
    ∀ (strategy : String) (need : ℚ) (bal : Bucket → ℚ),
      (resolveWithdrawalOrder "optimized" = [.NON_REG, .RRSP, .TFSA] ∧
       resolveWithdrawalOrder "rrsp" = [.RRSP, .NON_REG, .TFSA] ∧
       resolveWithdrawalOrder "non_registered" = [.NON_REG, .TFSA, .RRSP] ∧
       resolveWithdrawalOrder "tfsa" = [.TFSA, .NON_REG, .RRSP]) ∧
      (∀ b : Bucket,
        apply_withdrawal_strategy strategy need bal b = bal b ∨
          (0 ≤ apply_withdrawal_strategy strategy need bal b ∧
            apply_withdrawal_strategy strategy need bal b ≤ bal b)) ∧
      (0 ≤ need →
        bucketTotal bal - bucketTotal (apply_withdrawal_strategy strategy need bal) =
          min need (positiveTotal bal)) ∧
      (apply_withdrawal_strategy "optimized" 2500 exampleBalances Bucket.NON_REG = 0 ∧
       apply_withdrawal_strategy "optimized" 2500 exampleBalances Bucket.RRSP = 500 ∧
       apply_withdrawal_strategy "optimized" 2500 exampleBalances Bucket.TFSA = 5000) := by
  intro strategy need bal
  refine ⟨⟨rfl, rfl, rfl, rfl⟩, ?_, ?_, ?_⟩
  · intro b
    unfold apply_withdrawal_strategy
    by_cases hn : need ≤ 0
    · rw [if_pos hn]; left; rfl
    · rw [if_neg hn]
      exact drainLoop_bucket_bounds _ need bal b
  · intro h0
    unfold apply_withdrawal_strategy
    by_cases hn : need ≤ 0
    · rw [if_pos hn]
      have : need = 0 := le_antisymm hn h0
      subst this
      have hpt : 0 ≤ positiveTotal bal := by
        unfold positiveTotal
        have t1 := le_max_left 0 (bal Bucket.TFSA)
        have t2 := le_max_left 0 (bal Bucket.RRSP)
        have t3 := le_max_left 0 (bal Bucket.NON_REG)
        linarith
      rw [min_eq_left hpt]
      ring
    · rw [if_neg hn]
      have htot := drainLoop_total (resolveWithdrawalOrder strategy) need bal
      have hsum : ((resolveWithdrawalOrder strategy).map (fun b => max 0 (bal b))).sum =
          positiveTotal bal := by
        rcases resolveWithdrawalOrder_cases strategy with h | h | h | h <;>
          · rw [h]
            simp only [List.map_cons, List.map_nil, List.sum_cons, List.sum_nil,
              positiveTotal]
            ring
      have hnd : (resolveWithdrawalOrder strategy).Nodup := by
        rcases resolveWithdrawalOrder_cases strategy with h | h | h | h <;> rw [h] <;> decide
      have hrem := drainLoop_remaining (resolveWithdrawalOrder strategy) need bal hnd h0
      rw [hsum] at hrem
      have hdrained : bucketTotal bal -
          bucketTotal (drainLoop (resolveWithdrawalOrder strategy) need bal).1 =
            need - (drainLoop (resolveWithdrawalOrder strategy) need bal).2 := by
        linarith
      rw [hdrained, hrem]
      rcases le_total need (positiveTotal bal) with hle | hle
      · rw [min_eq_left hle, max_eq_left (by linarith), sub_zero]
      · rw [min_eq_right hle, max_eq_right (by linarith)]
        ring
  · have hb1 : Bucket.RRSP ≠ Bucket.NON_REG := by decide
    have hb2 : Bucket.TFSA ≠ Bucket.RRSP := by decide
    have hb3 : Bucket.TFSA ≠ Bucket.NON_REG := by decide
    have hb4 : Bucket.NON_REG ≠ Bucket.RRSP := by decide
    refine ⟨?_, ?_, ?_⟩ <;>
      · show (drainLoop [Bucket.NON_REG, Bucket.RRSP, Bucket.TFSA] 2500 exampleBalances).1 _ = _
        rw [drainLoop, if_neg (by norm_num), if_pos (show (0:ℚ) < exampleBalances .NON_REG by
          norm_num [exampleBalances])]
        rw [show min (exampleBalances .NON_REG) (2500:ℚ) = 1000 by
          norm_num [exampleBalances]]
        rw [drainLoop, if_neg (by norm_num [exampleBalances]),
          if_pos (show (0:ℚ) < updateBal exampleBalances .NON_REG
            (exampleBalances .NON_REG - 1000) .RRSP by
              norm_num [exampleBalances, updateBal, hb1])]
        rw [show min (updateBal exampleBalances .NON_REG (exampleBalances .NON_REG - 1000)
            Bucket.RRSP) ((2500:ℚ) - 1000) = 1500 by norm_num [exampleBalances, updateBal, hb1]]
        rw [drainLoop, if_pos (by norm_num [exampleBalances])]
        norm_num [exampleBalances, updateBal, hb1, hb2, hb3, hb4]

/-- C7 witness: the drain-total clause at the concrete worked example — with $8,000
of positive balances and a $2,500 need, exactly $2,500 leaves the buckets. -/
theorem C7_withdrawal_strategy_witness :
    (0:ℚ) ≤ 2500 ∧
    bucketTotal exampleBalances -
      bucketTotal (apply_withdrawal_strategy "optimized" 2500 exampleBalances) =
        min 2500 (positiveTotal exampleBalances) ∧
    min (2500:ℚ) (positiveTotal exampleBalances) = 2500 := by
  refine ⟨by norm_num,
    (C7_withdrawal_strategy "optimized" 2500 exampleBalances).2.2.1 (by norm_num), ?_⟩
  have h5 : positiveTotal exampleBalances = 8000 := by
    show max 0 (5000:ℚ) + max 0 (2000:ℚ) + max 0 (1000:ℚ) = 8000
    norm_num
  rw [h5]
  norm_num

/-- A run of accounts none of which normalizes to bucket `t` leaves the slots of `t`
unchanged through the `prepare_account_data` fold. -/
theorem prepareAccountStep_preserves (l : List InvestmentAccount) (t : Bucket) :
    ∀ (s : AccountData), (∀ b ∈ l, accountBucket b.account_type ≠ some t) →
      ((l.foldl prepareAccountStep s).account_balances t = s.account_balances t ∧
       (l.foldl prepareAccountStep s).account_contributions t = s.account_contributions t ∧
       (l.foldl prepareAccountStep s).account_returns t = s.account_returns t) := by
  induction l with
  | nil => intro s _; exact ⟨rfl, rfl, rfl⟩
  | cons hd rest ih =>
    intro s hnone
    rw [List.foldl_cons]
    have hstep : (prepareAccountStep s hd).account_balances t = s.account_balances t ∧
        (prepareAccountStep s hd).account_contributions t = s.account_contributions t ∧
        (prepareAccountStep s hd).account_returns t = s.account_returns t := by
      cases hab : accountBucket hd.account_type with
      | none => simp [prepareAccountStep, hab]
      | some t2 =>
        have hne : ¬(t = t2) := by
          intro h
          exact hnone hd (List.mem_cons_self hd rest) (by rw [hab, h])
        simp [prepareAccountStep, hab, updateBal, hne]
    have hrest := ih (prepareAccountStep s hd)
      (fun b hb => hnone b (List.mem_cons_of_mem hd hb))
    exact ⟨hrest.1.trans hstep.1, hrest.2.1.trans hstep.2.1, hrest.2.2.trans hstep.2.2⟩

/-- C9: in `prepare_account_data` a later account of a bucket type overwrites every
earlier one: whenever account `a` normalizes to bucket `t` and no account after it
does, the prepared balance, annualized contribution and expected return for `t` are
exactly those of `a`, regardless of the accounts before it. -/
theorem C9_last_account_wins :
    ∀ (l1 l2 : List InvestmentAccount) (a : InvestmentAccount) (t : Bucket),
      accountBucket a.account_type = some t →
      (∀ b ∈ l2, accountBucket b.account_type ≠ some t) →
      ((prepare_account_data (l1 ++ a :: l2)).account_balances t = (a.balance : ℚ) / 100 ∧
       (prepare_account_data (l1 ++ a :: l2)).account_contributions t = annualContribution a ∧
       (prepare_account_data (l1 ++ a :: l2)).account_returns t =
         get_account_return_profile a.investment_profile) := by
  intro l1 l2 a t ha hl2
  unfold prepare_account_data
  rw [List.foldl_append, List.foldl_cons]
  have hpres := prepareAccountStep_preserves l2 t
    (prepareAccountStep (l1.foldl prepareAccountStep
      { account_balances := fun _ => 0
        account_contributions := fun _ => 0
        account_returns := fun _ => 5/100 }) a) hl2
  refine ⟨hpres.1.trans ?_, hpres.2.1.trans ?_, hpres.2.2.trans ?_⟩ <;>
    · unfold prepareAccountStep
      rw [ha]
      simp [updateBal, annualContribution]

/-- C9 witness: with two TFSA accounts, the prepared TFSA slots are the second
account's $50.00 balance, $0 contribution and 10% growth return; the first account's
$1,000.00 balance and $1,200.00/year contribution are gone. -/
theorem C9_last_account_wins_witness :
    accountBucket tfsaAccountB.account_type = some Bucket.TFSA ∧
    (prepare_account_data [tfsaAccountA, tfsaAccountB]).account_balances Bucket.TFSA = 50 ∧
    (prepare_account_data [tfsaAccountA, tfsaAccountB]).account_contributions Bucket.TFSA = 0 ∧
    (prepare_account_data [tfsaAccountA, tfsaAccountB]).account_returns Bucket.TFSA = 1/10 := by
  have hb : accountBucket tfsaAccountB.account_type = some Bucket.TFSA := by rfl
  have h := C9_last_account_wins [tfsaAccountA] [] tfsaAccountB Bucket.TFSA hb
    (by intro b hbmem; cases hbmem)
  refine ⟨hb, ?_, ?_, ?_⟩
  · rw [show [tfsaAccountA, tfsaAccountB] = [tfsaAccountA] ++ tfsaAccountB :: [] from rfl, h.1]
    norm_num [tfsaAccountB]
  · rw [show [tfsaAccountA, tfsaAccountB] = [tfsaAccountA] ++ tfsaAccountB :: [] from rfl,
      h.2.1]
    norm_num [annualContribution, tfsaAccountB]
  · rw [show [tfsaAccountA, tfsaAccountB] = [tfsaAccountA] ++ tfsaAccountB :: [] from rfl,
      h.2.2]
    have hlow : strLower "growth" = "growth" := rfl
    have hne1 : ¬("growth" = "") := by decide
    have hne2 : ¬("growth" = "conservative") := by decide
    have hne3 : ¬("growth" = "balanced") := by decide
    show get_account_return_profile "growth" = 1/10
    simp only [get_account_return_profile, hlow]
    rw [if_neg hne1, if_neg hne2, if_neg hne3, if_pos rfl]
    norm_num

/-- C10: both projection-persistence paths store `success_probability` as null when
the Monte Carlo value is exactly 0 (or absent), because the write is gated on Python
truthiness, and store any strictly positive value rounded to 1 decimal place. -/
theorem C10_success_probability_gate :
    (create_success_probability_field (some 0) = none ∧
     update_success_probability_field (some 0) = none ∧
     create_success_probability_field none = none ∧
     update_success_probability_field none = none) ∧
    ∀ v : ℚ, 0 < v →
      create_success_probability_field (some v) = some (pyround1 v) ∧
      update_success_probability_field (some v) = some (pyround1 v) := by
  refine ⟨⟨?_, ?_, rfl, rfl⟩, ?_⟩
  · simp [create_success_probability_field]
  · simp [update_success_probability_field]
  · intro v hv
    constructor
    · simp [create_success_probability_field, ne_of_gt hv]
    · simp [update_success_probability_field, ne_of_gt hv]

/-- Truncation toward zero agrees with the floor on nonnegative arguments, which is
the only regime the percentile index k = (n-1)p with 0 ≤ p ≤ 1 can reach. -/
theorem pytrunc_of_nonneg {q : ℚ} (h : 0 ≤ q) : pytrunc q = ⌊q⌋ := by
  unfold pytrunc
  rw [if_neg (not_lt.mpr h)]

/-- Half-even rounding lies between the floor and the floor plus one. -/
theorem rnde_bounds (x : ℚ) : ⌊x⌋ ≤ rnde x ∧ rnde x ≤ ⌊x⌋ + 1 := by
  unfold rnde
  split_ifs <;> omega

/-- Half-even rounding is monotone. -/
theorem rnde_mono {x y : ℚ} (h : x ≤ y) : rnde x ≤ rnde y := by
  rcases lt_or_eq_of_le (Int.floor_mono h) with hlt | heq
  · calc rnde x ≤ ⌊x⌋ + 1 := (rnde_bounds x).2
      _ ≤ ⌊y⌋ := by omega
      _ ≤ rnde y := (rnde_bounds y).1
  · by_cases hx1 : x - (⌊x⌋ : ℚ) < 1/2
    · have hx : rnde x = ⌊x⌋ := by unfold rnde; rw [if_pos hx1]
      rw [hx, heq]
      exact (rnde_bounds y).1
    · by_cases hx2 : (1:ℚ)/2 < x - (⌊x⌋ : ℚ)
      · have hfl : ((⌊x⌋ : ℚ)) = ((⌊y⌋ : ℚ)) := by exact_mod_cast heq
        have hy2 : (1:ℚ)/2 < y - (⌊y⌋ : ℚ) := by
          rw [← hfl]
          linarith
        have hy1 : ¬(y - (⌊y⌋ : ℚ) < 1/2) := by linarith
        unfold rnde
        rw [if_neg hx1, if_pos hx2, if_neg hy1, if_pos hy2]
        omega
      · have hfl : ((⌊x⌋ : ℚ)) = ((⌊y⌋ : ℚ)) := by exact_mod_cast heq
        by_cases hy1 : y - (⌊y⌋ : ℚ) < 1/2
        · exfalso
          rw [← hfl] at hy1
          linarith
        · by_cases hy2 : (1:ℚ)/2 < y - (⌊y⌋ : ℚ)
          · have hub := (rnde_bounds x).2
            have hyv : rnde y = ⌊y⌋ + 1 := by unfold rnde; rw [if_neg hy1, if_pos hy2]
            rw [hyv]
            omega
          · unfold rnde
            rw [if_neg hx1, if_neg hx2, if_neg hy1, if_neg hy2, heq]

/-- Python 2-decimal rounding is monotone. -/
theorem pyround2_mono {x y : ℚ} (h : x ≤ y) : pyround2 x ≤ pyround2 y := by
  unfold pyround2
  have h1 := rnde_mono (mul_le_mul_of_nonneg_right h (by norm_num : (0:ℚ) ≤ 100))
  have h2 : ((rnde (x * 100)) : ℚ) ≤ ((rnde (y * 100)) : ℚ) := by exact_mod_cast h1
  linarith

/-- In a sorted list, the default-0 read is monotone over in-bound indices. -/
theorem sorted_getD_mono {l : List ℚ} (hs : l.Sorted (· ≤ ·)) {i j : ℕ} (hij : i ≤ j)
    (hj : j < l.length) : l.getD i 0 ≤ l.getD j 0 := by
  have hi : i < l.length := lt_of_le_of_lt hij hj
  rw [List.getD_eq_getElem l 0 hi, List.getD_eq_getElem l 0 hj]
  have h := hs.rel_get_of_le (a := ⟨i, hi⟩) (b := ⟨j, hj⟩) hij
  simpa [List.get_eq_getElem] using h

/-- Unfolding of `percentile` on nonempty data. -/
theorem percentile_of_ne_nil (data : List ℚ) (p : ℚ) (h : ¬(data = [])) :
    percentile data p =
      if pytrunc (((data.length : ℚ) - 1) * p) + 1 < (data.length : ℤ) then
        data.getD (pytrunc (((data.length : ℚ) - 1) * p)).toNat 0 +
          (((data.length : ℚ) - 1) * p - ((pytrunc (((data.length : ℚ) - 1) * p)) : ℚ)) *
            (data.getD ((pytrunc (((data.length : ℚ) - 1) * p)).toNat + 1) 0 -
              data.getD (pytrunc (((data.length : ℚ) - 1) * p)).toNat 0)
      else data.getD (pytrunc (((data.length : ℚ) - 1) * p)).toNat 0 := by
  simp only [percentile, if_neg h]

/-- Linear interpolation over a sorted list at index (n-1)p is monotone in p on
[0, 1]. -/
theorem percentile_mono {data : List ℚ} (hs : data.Sorted (· ≤ ·)) {p q : ℚ}
    (hp : 0 ≤ p) (hpq : p ≤ q) (hq : q ≤ 1) :
    percentile data p ≤ percentile data q := by
  by_cases hnil : data = []
  · subst hnil
    simp [percentile]
  · have hlen : 0 < data.length := List.length_pos.mpr hnil
    rw [percentile_of_ne_nil data p hnil, percentile_of_ne_nil data q hnil]
    set n := data.length with hn
    have hnq : (0:ℚ) ≤ (n : ℚ) - 1 := by
      have h1 : (1:ℚ) ≤ (n : ℚ) := by exact_mod_cast hlen
      linarith
    set k1 : ℚ := ((n : ℚ) - 1) * p with hk1def
    set k2 : ℚ := ((n : ℚ) - 1) * q with hk2def
    have hk1nn : 0 ≤ k1 := mul_nonneg hnq hp
    have hk2nn : 0 ≤ k2 := mul_nonneg hnq (hp.trans hpq)
    have hk12 : k1 ≤ k2 := mul_le_mul_of_nonneg_left hpq hnq
    have hk2top : k2 ≤ (n : ℚ) - 1 := by
      calc k2 ≤ ((n : ℚ) - 1) * 1 := mul_le_mul_of_nonneg_left hq hnq
        _ = (n : ℚ) - 1 := mul_one _
    have hf1nn : 0 ≤ ⌊k1⌋ := Int.le_floor.mpr (by exact_mod_cast hk1nn)
    have hf2nn : 0 ≤ ⌊k2⌋ := Int.le_floor.mpr (by exact_mod_cast hk2nn)
    have hf12 : ⌊k1⌋ ≤ ⌊k2⌋ := Int.floor_mono hk12
    have hf2top : ⌊k2⌋ ≤ (n : ℤ) - 1 := by
      have h1 : ⌊k2⌋ ≤ ⌊((n : ℚ) - 1)⌋ := Int.floor_mono hk2top
      have h2 : ((n : ℚ) - 1) = (((n : ℤ) - 1 : ℤ) : ℚ) := by push_cast; ring
      rw [h2, Int.floor_intCast] at h1
      exact h1
    have hi1 : ((⌊k1⌋.toNat : ℤ)) = ⌊k1⌋ := Int.toNat_of_nonneg hf1nn
    have hi2 : ((⌊k2⌋.toNat : ℤ)) = ⌊k2⌋ := Int.toNat_of_nonneg hf2nn
    have hc1nn : 0 ≤ k1 - (⌊k1⌋ : ℚ) := by
      have h1 := Int.fract_nonneg k1
      rwa [← Int.self_sub_floor] at h1
    have hc1lt : k1 - (⌊k1⌋ : ℚ) < 1 := by
      have h1 := Int.fract_lt_one k1
      rwa [← Int.self_sub_floor] at h1
    have hc2nn : 0 ≤ k2 - (⌊k2⌋ : ℚ) := by
      have h1 := Int.fract_nonneg k2
      rwa [← Int.self_sub_floor] at h1
    rw [pytrunc_of_nonneg hk1nn, pytrunc_of_nonneg hk2nn]
    rcases lt_or_eq_of_le hf12 with hflt | hfeq
    · have hcond1 : ⌊k1⌋ + 1 < (n : ℤ) := by omega
      rw [if_pos hcond1]
      have hidx1 : ⌊k1⌋.toNat + 1 < n := by omega
      have hidx12 : ⌊k1⌋.toNat + 1 ≤ ⌊k2⌋.toNat := by omega
      have hidx2 : ⌊k2⌋.toNat < n := by omega
      have hg1 : data.getD ⌊k1⌋.toNat 0 ≤ data.getD (⌊k1⌋.toNat + 1) 0 :=
        sorted_getD_mono hs (Nat.le_succ _) hidx1
      have hstep : data.getD (⌊k1⌋.toNat + 1) 0 ≤ data.getD ⌊k2⌋.toNat 0 :=
        sorted_getD_mono hs hidx12 hidx2
      have hval1 : data.getD ⌊k1⌋.toNat 0 + (k1 - (⌊k1⌋ : ℚ)) *
          (data.getD (⌊k1⌋.toNat + 1) 0 - data.getD ⌊k1⌋.toNat 0) ≤
            data.getD (⌊k1⌋.toNat + 1) 0 := by
        have h1 := mul_le_mul_of_nonneg_right hc1lt.le (sub_nonneg.mpr hg1)
        linarith
      by_cases hcond2 : ⌊k2⌋ + 1 < (n : ℤ)
      · rw [if_pos hcond2]
        have hg2 : data.getD ⌊k2⌋.toNat 0 ≤ data.getD (⌊k2⌋.toNat + 1) 0 :=
          sorted_getD_mono hs (Nat.le_succ _) (by omega)
        have h2 := mul_nonneg hc2nn (sub_nonneg.mpr hg2)
        linarith
      · rw [if_neg hcond2]
        linarith
    · rw [← hfeq]
      by_cases hcond : ⌊k1⌋ + 1 < (n : ℤ)
      · rw [if_pos hcond, if_pos hcond]
        have hidx : ⌊k1⌋.toNat + 1 < n := by omega
        have hg : data.getD ⌊k1⌋.toNat 0 ≤ data.getD (⌊k1⌋.toNat + 1) 0 :=
          sorted_getD_mono hs (Nat.le_succ _) hidx
        have hfc : (⌊k1⌋ : ℚ) = (⌊k2⌋ : ℚ) := by exact_mod_cast hfeq
        have hcc : k1 - (⌊k1⌋ : ℚ) ≤ k2 - (⌊k1⌋ : ℚ) := by linarith
        have h1 := mul_le_mul_of_nonneg_right hcc (sub_nonneg.mpr hg)
        linarith
      · rw [if_neg hcond, if_neg hcond]

/-- C8: for every Monte Carlo run, the five reported percentiles of the sorted final
balances, computed by truncated-index linear interpolation and rounded to 2 decimals,
satisfy percentile_10 ≤ percentile_25 ≤ percentile_50 ≤ percentile_75 ≤
percentile_90. -/
theorem C8_percentile_ordering :
    ∀ ending_balances : List ℚ,
      reported_percentile ending_balances (10/100) ≤
        reported_percentile ending_balances (25/100) ∧
      reported_percentile ending_balances (25/100) ≤
        reported_percentile ending_balances (50/100) ∧
      reported_percentile ending_balances (50/100) ≤
        reported_percentile ending_balances (75/100) ∧
      reported_percentile ending_balances (75/100) ≤
        reported_percentile ending_balances (90/100) := by
  intro ending_balances
  have hs : List.Sorted (· ≤ ·) (ending_balances.mergeSort) :=
    List.sorted_mergeSort' ending_balances
  refine ⟨?_, ?_, ?_, ?_⟩ <;>
    · unfold reported_percentile
      exact pyround2_mono (percentile_mono hs (by norm_num) (by norm_num) (by norm_num))

/-- C1: evaluating the serializer's money conversion at the accepted account balance
$0.29 shows the round-trip failing by one cent: the validator accepts 0.29, the
write path `int(float(0.29) * 100)` stores 28 cents (float(0.29) is
5224175567749775/2^54 ≈ 0.28999…, and the binary64 product with 100 is
8162774324609023/2^48 ≈ 28.999999999999996, truncated to 28), and the read path
returns the binary64 value of 0.28, not 0.29. -/
theorem C1_money_roundtrip_failing_input :
    validate_balance_accepts (29/100) = true ∧
    dollars_to_cents_stored (29/100) = 28 ∧
    cents_to_dollars_read 28 ≠ 29/100 := by
  refine ⟨by rw [validate_balance_accepts, if_neg (by norm_num)], ?_, ?_⟩
  · have hr1 : roundF (29/100) = 5224175567749775/18014398509481984 := by
      rw [roundF, if_neg (by norm_num), if_neg (by norm_num), roundFpos]
      have hlog : qlog2floor (29/100) = -2 := by
        rw [qlog2floor, if_neg (by norm_num)]
        have hinv : ((29/100 : ℚ))⁻¹ = 100/29 := by norm_num
        have hceil : ⌈(100/29 : ℚ)⌉ = 4 := by
          rw [Int.ceil_eq_iff]
          constructor <;> norm_num
        rw [hinv, hceil]
        decide
      rw [hlog]
      have harg : (29/100 : ℚ) * (2:ℚ)^((52:ℤ) - (-2)) = 130604389193744384/25 := by
        norm_num
      rw [harg]
      have hfl : ⌊(130604389193744384/25 : ℚ)⌋ = 5224175567749775 := by norm_num
      have hrnde : rnde (130604389193744384/25) = 5224175567749775 := by
        rw [rnde, hfl, if_pos (by norm_num)]
      rw [hrnde]
      norm_num
    rw [dollars_to_cents_stored, hr1]
    have hv : (5224175567749775/18014398509481984 : ℚ) * 100 =
        130604389193744375/4503599627370496 := by norm_num
    rw [hv]
    have hr2 : roundF (130604389193744375/4503599627370496) =
        8162774324609023/281474976710656 := by
      rw [roundF, if_neg (by norm_num), if_neg (by norm_num), roundFpos]
      have hfv : ⌊(130604389193744375/4503599627370496 : ℚ)⌋ = 28 := by norm_num
      have hlog : qlog2floor (130604389193744375/4503599627370496) = 4 := by
        rw [qlog2floor, if_pos (by norm_num), hfv]
        decide
      rw [hlog]
      have harg : (130604389193744375/4503599627370496 : ℚ) * (2:ℚ)^((52:ℤ) - 4) =
          130604389193744375/16 := by norm_num
      rw [harg]
      have hfl : ⌊(130604389193744375/16 : ℚ)⌋ = 8162774324609023 := by norm_num
      have hrnde : rnde (130604389193744375/16) = 8162774324609023 := by
        rw [rnde, hfl, if_pos (by norm_num)]
      rw [hrnde]
      norm_num
    rw [hr2, pytrunc, if_neg (by norm_num)]
    norm_num
  · have hr28 : roundF ((28:ℤ) : ℚ) = 28 := by
      rw [roundF, if_neg (by norm_num), if_neg (by norm_num), roundFpos]
      have hfl28 : ⌊((28:ℤ) : ℚ)⌋ = 28 := by norm_num
      have hlog : qlog2floor ((28:ℤ) : ℚ) = 4 := by
        rw [qlog2floor, if_pos (by norm_num), hfl28]
        decide
      rw [hlog]
      have harg : ((28:ℤ) : ℚ) * (2:ℚ)^((52:ℤ) - 4) = 7881299347898368 := by norm_num
      rw [harg]
      have hfl : ⌊(7881299347898368 : ℚ)⌋ = 7881299347898368 := by norm_num
      have hrnde : rnde (7881299347898368) = 7881299347898368 := by
        rw [rnde, hfl, if_pos (by norm_num)]
      rw [hrnde]
      norm_num
    rw [cents_to_dollars_read, hr28]
    have hq : (28:ℚ)/100 = 7/25 := by norm_num
    rw [hq]
    have hr3 : roundF (7/25) = 5044031582654956/18014398509481984 := by
      rw [roundF, if_neg (by norm_num), if_neg (by norm_num), roundFpos]
      have hlog : qlog2floor (7/25) = -2 := by
        rw [qlog2floor, if_neg (by norm_num)]
        have hinv : ((7/25 : ℚ))⁻¹ = 25/7 := by norm_num
        have hceil : ⌈(25/7 : ℚ)⌉ = 4 := by
          rw [Int.ceil_eq_iff]
          constructor <;> norm_num
        rw [hinv, hceil]
        decide
      rw [hlog]
      have harg : (7/25 : ℚ) * (2:ℚ)^((52:ℤ) - (-2)) = 126100789566373888/25 := by
        norm_num
      rw [harg]
      have hfl : ⌊(126100789566373888/25 : ℚ)⌋ = 5044031582654955 := by norm_num
      have hrnde : rnde (126100789566373888/25) = 5044031582654956 := by
        rw [rnde, hfl, if_neg (by norm_num), if_pos (by norm_num)]
        norm_num
      rw [hrnde]
      norm_num
    rw [hr3]
    norm_num

/-- C10 witness: a strictly positive success probability of 87.35 is stored on both
paths, rounded to one decimal (87.4, the tie at 873.5 rounding to the even 874 over
10 being irrelevant here: 873.5 rounds to 874). -/
theorem C10_success_probability_gate_witness :
    (0:ℚ) < 8735/100 ∧
    create_success_probability_field (some (8735/100)) = some (pyround1 (8735/100)) ∧
    update_success_probability_field (some (8735/100)) = some (pyround1 (8735/100)) := by
  refine ⟨by norm_num, ?_, ?_⟩
  · exact (C10_success_probability_gate.2 (8735/100) (by norm_num)).1
  · exact (C10_success_probability_gate.2 (8735/100) (by norm_num)).2

end RetireCalc
